import Mathlib

/-!
Shallow embedding of `src/agent/cortex_chat.rs` (spacebot): the cortex chat
session — message persistence (`CortexChatStore`), system prompt assembly
(`build_system_prompt`), channel transcript rendering
(`load_channel_transcript`), and the request cycle (`send_message`).

External collaborators (SQLite, the rig completion engine, the prompt
template engine, the channel history service) are modelled as explicit
parameters: their outcomes are inputs to the embedded functions, and the
embedded functions record what they pass to them.
-/

namespace Spacebot

/-- A persisted cortex chat message (struct `CortexChatMessage`).
`id` is a `Uuid::new_v4` string in the source; the embedding draws ids from
a per-store counter, keeping the generated-at-write-time uniqueness.
`created_at` is a `chrono::NaiveDateTime` assigned by the database at insert
time; the embedding uses `Nat` ticks of the store clock. -/
structure CortexChatMessage where
  id : Nat
  thread_id : String
  role : String
  content : String
  channel_context : Option String
  created_at : Nat
deriving Repr, DecidableEq

/-- One item of a channel timeline (`TimelineItem` in
`conversation/history`, as consumed by `load_channel_transcript`): a plain
message, a branch run with optional conclusion, or a worker run with
optional result. Only the fields the renderer reads are modelled; the
other fields of the source are matched with `..` and never used here. -/
inductive TimelineItem where
  | message (role : String) (content : String) (sender_name : Option String)
  | branchRun (description : String) (conclusion : Option String)
  | workerRun (task : String) (result : Option String)
deriving Repr, DecidableEq

/-- A conversational turn handed to the completion engine
(`rig::message::Message`): `Message::from(&str)` builds a user turn,
`Message::from(AssistantContent)` an assistant turn. -/
inductive RigMessage where
  | user (text : String)
  | assistant (text : String)
deriving Repr, DecidableEq

/-- The error returned by `send_message` (`anyhow::Error` in the source):
either a propagated storage failure (`sqlx::Error`, via `?`) or the
`anyhow!(error_text)` built on completion-engine failure. -/
inductive ChatError where
  | storage (e : String)
  | chat (message : String)
deriving Repr, DecidableEq

/-- The durable store state behind `CortexChatStore`: the
`cortex_chat_messages` table as an insertion-ordered (rowid-ordered) list,
plus the id counter and the database clock used to stamp `created_at`. -/
structure StoreState where
  rows : List CortexChatMessage
  nextId : Nat
  clock : Nat
deriving Repr, DecidableEq

/-- The empty store. -/
def initialStore : StoreState := ⟨[], 0, 0⟩

/-- Embeds `CortexChatStore::save_message`: generate a fresh id, insert one row,
return the id. `created_at` is not bound by the INSERT in the source; the
database stamps it at write time. Modelled from the spec: the database
clock advances by `elapsed ≥ 0` between writes, so `created_at` values are
non-decreasing in insertion order. -/
def saveMessage (s : StoreState) (thread_id role content : String)
    (channel_context : Option String) (elapsed : Nat) : StoreState × Nat :=
  let now := s.clock + elapsed
  let row : CortexChatMessage :=
    ⟨s.nextId, thread_id, role, content, channel_context, now⟩
  (⟨s.rows ++ [row], s.nextId + 1, now⟩, s.nextId)

/-- One recorded `save_message` call, for reasoning about arbitrary call
sequences. -/
structure SaveOp where
  thread_id : String
  role : String
  content : String
  channel_context : Option String
  elapsed : Nat
deriving Repr, DecidableEq

/-- Apply a sequence of `save_message` calls to a store. -/
def applyOps (ops : List SaveOp) (s : StoreState) : StoreState :=
  ops.foldl (fun acc op =>
    (saveMessage acc op.thread_id op.role op.content op.channel_context op.elapsed).1) s

/-- The rows of one thread, in insertion order
(`WHERE thread_id = ?` over the table). -/
def threadRows (s : StoreState) (thread_id : String) : List CortexChatMessage :=
  s.rows.filter (fun m => m.thread_id = thread_id)

/-- Insert a row into a list kept in descending `created_at` order, placing
it before any row whose timestamp it ties: among equal timestamps the
later-inserted row comes first in the descending scan. -/
def insertDesc (m : CortexChatMessage) : List CortexChatMessage → List CortexChatMessage
  | [] => [m]
  | x :: xs =>
      if x.created_at ≤ m.created_at then m :: x :: xs else x :: insertDesc m xs

/-- The `ORDER BY created_at DESC` of `load_history`. Modelled from the
spec: the tie order among equal timestamps is fixed by the table schema
(not under src/); the spec states ties are broken by insertion order, i.e.
the descending scan yields later-inserted rows first among equal
timestamps. -/
def orderByCreatedAtDesc (rows : List CortexChatMessage) : List CortexChatMessage :=
  rows.foldl (fun acc m => insertDesc m acc) []

/-- Embeds `CortexChatStore::load_history`: fetch up to `limit` rows of the thread
newest first (`ORDER BY created_at DESC LIMIT ?`), then reverse to
chronological order. -/
def loadHistory (s : StoreState) (thread_id : String) (limit : Nat) :
    List CortexChatMessage :=
  (((orderByCreatedAtDesc (threadRows s thread_id))).take limit).reverse

/-- What one timeline item contributes to the transcript in
`load_channel_transcript`: a message always renders as
a double-starred sender name (or role) followed by the content; a branch or worker run renders only
when its optional outcome (`conclusion` / `result`) is populated, else the
loop pushes nothing for it. -/
def renderTimelineItem : TimelineItem → Option String
  | .message role content sender_name =>
      some ("**" ++ sender_name.getD role ++ "**: " ++ content ++ "\n\n")
  | .branchRun description conclusion =>
      conclusion.map (fun c => "*[Branch: " ++ description ++ "]*: " ++ c ++ "\n\n")
  | .workerRun task result =>
      result.map (fun r => "*[Worker: " ++ task ++ "]*: " ++ r ++ "\n\n")

/-- Embeds `CortexChatSession::load_channel_transcript`, as a function of the
external history service outcome (`load_channel_timeline(channel_id, 50)`):
on a non-empty item list, fold the items into one string, pushing each
rendered piece; on an empty list return `None`; on a transport failure log
a warning (not modelled) and return `None`. -/
def loadChannelTranscript (timeline : Except String (List TimelineItem)) :
    Option String :=
  match timeline with
  | .ok items =>
      if items.isEmpty then none
      else
        some (items.foldl (fun acc item => acc ++ (renderTimelineItem item).getD "") "")
  | .error _ => none

/-- The template-rendering collaborator (`PromptEngine` methods used by
`build_system_prompt`). In the source both methods return `Result` and the
caller unwraps with `expect`: a rendering failure aborts the process (spec
§4.3, fatal configuration defect), so it is not modelled as a value and the
methods are total here. -/
structure PromptEngine where
  render_worker_capabilities : Bool → Bool → Bool → String
  render_cortex_chat_prompt : Option String → Option String → Option String → String → String

/-- The live runtime-configuration snapshot `build_system_prompt` reads:
the rendered identity text (`identity.load().render()`), the memory
bulletin, and the three capability flags (`browser_config.enabled`,
`brave_search_key.is_some()`, `opencode.enabled`). -/
structure RuntimeConfig where
  identity_rendered : String
  memory_bulletin : String
  browser_enabled : Bool
  brave_search_key : Option String
  opencode_enabled : Bool

/-- The closure `empty_to_none` of `build_system_prompt`. -/
def emptyToNone (s : String) : Option String :=
  if s = "" then none else some s

/-- Embeds `CortexChatSession::build_system_prompt`: render the worker
capabilities from the three flags, load the channel transcript only when a
channel context id is supplied, normalize empty identity and memory to
`None`, and hand the four slots to `render_cortex_chat_prompt`. -/
def buildSystemPrompt (engine : PromptEngine) (cfg : RuntimeConfig)
    (timeline : Except String (List TimelineItem))
    (channel_context_id : Option String) : String :=
  let worker_capabilities :=
    engine.render_worker_capabilities cfg.browser_enabled
      cfg.brave_search_key.isSome cfg.opencode_enabled
  let channel_transcript :=
    match channel_context_id with
    | some _ => loadChannelTranscript timeline
    | none => none
  engine.render_cortex_chat_prompt (emptyToNone cfg.identity_rendered)
    (emptyToNone cfg.memory_bulletin) channel_transcript worker_capabilities

/-- The role conversion of `send_message` step 4: a retained row becomes a
user turn when `role == "user"`, an assistant turn when
`role == "assistant"`, and is dropped silently otherwise. -/
def toRigMessage (m : CortexChatMessage) : Option RigMessage :=
  if m.role = "user" then some (.user m.content)
  else if m.role = "assistant" then some (.assistant m.content)
  else none

/-- The request-scoped completion-engine invocation `send_message` builds:
the resolved model, the assembled system prompt, the 50-turn cap, the prior
history, and the raw user text as the prompt. -/
structure EngineCall where
  model : String
  preamble : String
  max_turns : Nat
  history : List RigMessage
  prompt : String
deriving Repr, DecidableEq

/-- The per-`send_message` outcomes of the external collaborators:
the completion engine result, an optional `sqlx` failure injected at the
step-2 user save and at the final (step-8/9) assistant save, the history
service outcome for the channel timeline, and the database clock advances
at the two inserts. -/
structure SendEnv where
  engine_result : Except String String
  user_save_fail : Option String
  final_save_fail : Option String
  timeline : Except String (List TimelineItem)
  save_elapsed1 : Nat
  save_elapsed2 : Nat

/-- The per-session configuration `send_message` reads: the prompt engine,
the runtime snapshot, and the model the routing collaborator resolves for
`ProcessType::Branch`. -/
structure SessionConfig where
  prompt_engine : PromptEngine
  runtime : RuntimeConfig
  branch_model : String

/-- Embeds `CortexChatSession::send_message`. The `send_lock` serialises whole
calls; one call runs the body alone, so the body is a function of the store
state at lock acquisition. Steps: persist the user turn (a storage failure
aborts via `?`), build the system prompt, load up to 100 history rows and
drop the last (the turn just saved), convert roles, invoke the engine; on
success persist and return the response, on failure persist
the text `"Cortex chat error: "` followed by the error as an assistant row and return that text as
the failure. Returns the final store state, the engine call made (if the
request got that far), and the result. -/
def sendMessage (cfg : SessionConfig) (s : StoreState) (env : SendEnv)
    (thread_id user_text : String) (channel_context_id : Option String) :
    StoreState × Option EngineCall × Except ChatError String :=
  match env.user_save_fail with
  | some e => (s, none, .error (.storage e))
  | none =>
    let s1 := (saveMessage s thread_id "user" user_text channel_context_id
      env.save_elapsed1).1
    let system_prompt :=
      buildSystemPrompt cfg.prompt_engine cfg.runtime env.timeline channel_context_id
    let chat_messages := loadHistory s1 thread_id 100
    let history := chat_messages.dropLast.filterMap toRigMessage
    let call : EngineCall := ⟨cfg.branch_model, system_prompt, 50, history, user_text⟩
    match env.engine_result with
    | .ok response =>
        match env.final_save_fail with
        | some e => (s1, some call, .error (.storage e))
        | none =>
            let s2 := (saveMessage s1 thread_id "assistant" response
              channel_context_id env.save_elapsed2).1
            (s2, some call, .ok response)
    | .error error =>
        let error_text := "Cortex chat error: " ++ error
        match env.final_save_fail with
        | some e => (s1, some call, .error (.storage e))
        | none =>
            let s2 := (saveMessage s1 thread_id "assistant" error_text
              channel_context_id env.save_elapsed2).1
            (s2, some call, .error (.chat error_text))

/-- A concrete template-rendering collaborator, used to instantiate the
engine in closed-form checks. -/
def sampleEngine : PromptEngine :=
  ⟨fun b w o => toString b ++ toString w ++ toString o,
   fun i m c w => i.getD "-" ++ "|" ++ m.getD "-" ++ "|" ++ c.getD "-" ++ "|" ++ w⟩

/-! ### Store invariants and the shape of `load_history` -/

/-- Invariant of every reachable store state: rows carry non-decreasing
timestamps bounded by the clock, and strictly increasing ids bounded by the
id counter. -/
structure StoreInv (s : StoreState) : Prop where
  time_sorted : s.rows.Pairwise (fun a b => a.created_at ≤ b.created_at)
  time_le_clock : ∀ m ∈ s.rows, m.created_at ≤ s.clock
  id_sorted : s.rows.Pairwise (fun a b => a.id < b.id)
  id_lt_next : ∀ m ∈ s.rows, m.id < s.nextId

theorem storeInv_initial : StoreInv initialStore :=
  ⟨.nil, by simp [initialStore], .nil, by simp [initialStore]⟩

theorem storeInv_save (s : StoreState) (t r c : String) (cc : Option String)
    (e : Nat) (h : StoreInv s) : StoreInv (saveMessage s t r c cc e).1 := by
  obtain ⟨hts, htc, his, hin⟩ := h
  refine ⟨?_, ?_, ?_, ?_⟩ <;> simp only [saveMessage, List.pairwise_append,
    List.mem_append, List.mem_singleton]
  · exact ⟨hts, by simp, fun a ha b hb => by
      subst hb; exact le_trans (htc a ha) (Nat.le_add_right _ _)⟩
  · rintro m (hm | hm)
    · exact le_trans (htc m hm) (Nat.le_add_right _ _)
    · subst hm; rfl
  · exact ⟨his, by simp, fun a ha b hb => by subst hb; exact hin a ha⟩
  · rintro m (hm | hm)
    · exact Nat.lt_succ_of_lt (hin m hm)
    · subst hm; exact Nat.lt_succ_self _

theorem storeInv_applyOps (ops : List SaveOp) (s : StoreState)
    (h : StoreInv s) : StoreInv (applyOps ops s) := by
  induction ops generalizing s with
  | nil => exact h
  | cons op ops ih =>
      exact ih _ (storeInv_save s op.thread_id op.role op.content
        op.channel_context op.elapsed h)

theorem insertDesc_eq_cons (m : CortexChatMessage)
    (acc : List CortexChatMessage)
    (h : ∀ x ∈ acc, x.created_at ≤ m.created_at) :
    insertDesc m acc = m :: acc := by
  cases acc with
  | nil => rfl
  | cons x xs => simp [insertDesc, h x (List.mem_cons_self x xs)]

theorem foldl_insertDesc (rows : List CortexChatMessage) :
    ∀ acc : List CortexChatMessage,
      rows.Pairwise (fun a b => a.created_at ≤ b.created_at) →
      (∀ a ∈ acc, ∀ r ∈ rows, a.created_at ≤ r.created_at) →
      rows.foldl (fun acc m => insertDesc m acc) acc = rows.reverse ++ acc := by
  induction rows with
  | nil => intro acc _ _; rfl
  | cons m rs ih =>
      intro acc hsort hacc
      have hstep : insertDesc m acc = m :: acc :=
        insertDesc_eq_cons m acc
          (fun x hx => hacc x hx m (List.mem_cons_self m rs))
      have hacc2 : ∀ a ∈ m :: acc, ∀ r ∈ rs, a.created_at ≤ r.created_at := by
        intro a ha r hr
        rcases List.mem_cons.mp ha with h1 | h1
        · subst h1; exact (List.pairwise_cons.mp hsort).1 r hr
        · exact hacc a h1 r (List.mem_cons_of_mem m hr)
      calc (m :: rs).foldl (fun acc m => insertDesc m acc) acc
          = rs.foldl (fun acc m => insertDesc m acc) (m :: acc) := by
            rw [List.foldl_cons, hstep]
        _ = rs.reverse ++ (m :: acc) :=
            ih (m :: acc) (List.Pairwise.of_cons hsort) hacc2
        _ = (m :: rs).reverse ++ acc := by simp

/-- On a timestamp-sorted row list, the descending scan is exactly the
reverse of insertion order. -/
theorem orderByCreatedAtDesc_of_sorted (rows : List CortexChatMessage)
    (h : rows.Pairwise (fun a b => a.created_at ≤ b.created_at)) :
    orderByCreatedAtDesc rows = rows.reverse := by
  simpa [orderByCreatedAtDesc] using foldl_insertDesc rows [] h (by simp)

theorem threadRows_pairwise_time (s : StoreState) (t : String)
    (h : StoreInv s) :
    (threadRows s t).Pairwise (fun a b => a.created_at ≤ b.created_at) :=
  h.time_sorted.filter _

/-- In every reachable state, `load_history` is a suffix: the last
`min limit count` rows of the thread, in insertion order. -/
theorem loadHistory_eq_drop (s : StoreState) (t : String) (limit : Nat)
    (h : StoreInv s) :
    loadHistory s t limit
      = (threadRows s t).drop ((threadRows s t).length - limit) := by
  rw [loadHistory, orderByCreatedAtDesc_of_sorted _ (threadRows_pairwise_time s t h),
    List.take_reverse, List.reverse_reverse]

/-- Saving a row for thread `t` appends it to the projection of `t`. -/
theorem threadRows_save_same (s : StoreState) (t r c : String)
    (cc : Option String) (e : Nat) :
    threadRows (saveMessage s t r c cc e).1 t
      = threadRows s t ++ [⟨s.nextId, t, r, c, cc, s.clock + e⟩] := by
  simp [threadRows, saveMessage, List.filter_append]

/-- In every branch past a successful step-2 save, the engine call records
the dropLast-of-`load_history` rows converted by `toRigMessage`. -/
theorem sendMessage_call_history (cfg : SessionConfig) (s : StoreState)
    (er : Except String String) (fsf : Option String)
    (tl : Except String (List TimelineItem)) (e1 e2 : Nat)
    (t utext : String) (cc : Option String) :
    ((sendMessage cfg s ⟨er, none, fsf, tl, e1, e2⟩ t utext cc).2.1).map
        EngineCall.history
      = some (((loadHistory (saveMessage s t "user" utext cc e1).1 t
          100).dropLast).filterMap toRigMessage) := by
  cases er <;> cases fsf <;> rfl

/-- After the step-2 save, dropping the last loaded row leaves exactly the
most recent pre-existing rows of the thread: the inbound turn is excluded. -/
theorem history_rows_after_save (s : StoreState) (t utext : String)
    (cc : Option String) (e1 : Nat) (h : StoreInv s) :
    (loadHistory (saveMessage s t "user" utext cc e1).1 t 100).dropLast
      = (threadRows s t).drop ((threadRows s t).length + 1 - 100) := by
  have h1 : StoreInv (saveMessage s t "user" utext cc e1).1 :=
    storeInv_save s t "user" utext cc e1 h
  rw [loadHistory_eq_drop _ t 100 h1, threadRows_save_same]
  have hlen : (threadRows s t).length + 1 - 100 ≤ (threadRows s t).length := by
    omega
  rw [List.length_append, List.length_singleton,
    List.drop_append_of_le_length hlen, List.dropLast_concat]

/-! ### Claim theorems -/

/-- C1: on a completion-engine failure with message `E` and successful
persistence, the assistant-role row persisted for the request has content
exactly `"Cortex chat error: " ++ E`, and `send_message` returns a failure
carrying that same text. -/
theorem send_message_engine_failure (cfg : SessionConfig) (s : StoreState)
    (tl : Except String (List TimelineItem)) (e1 e2 : Nat)
    (t utext E : String) (cc : Option String) :
    ((sendMessage cfg s ⟨.error E, none, none, tl, e1, e2⟩ t utext cc).2.2
        = .error (.chat ("Cortex chat error: " ++ E))) ∧
    (∃ m : CortexChatMessage,
      ((sendMessage cfg s ⟨.error E, none, none, tl, e1, e2⟩ t utext cc).1).rows.getLast?
          = some m ∧
      m.role = "assistant" ∧ m.content = "Cortex chat error: " ++ E ∧
      m.thread_id = t ∧ m.channel_context = cc) := by
  refine ⟨rfl, ⟨⟨(saveMessage s t "user" utext cc e1).1.nextId, t, "assistant",
    "Cortex chat error: " ++ E, cc,
    (saveMessage s t "user" utext cc e1).1.clock + e2⟩, ?_, rfl, rfl, rfl, rfl⟩⟩
  exact List.getLast?_concat _

/-- C10: when the completion engine fails and the subsequent error-row
persistence itself fails with storage error `S`, `send_message` returns the
storage error, not a failure carrying the formatted chat-error text, and
the error text is not persisted. -/
theorem send_message_error_persist_failure (cfg : SessionConfig)
    (s : StoreState) (tl : Except String (List TimelineItem)) (e1 e2 : Nat)
    (t utext E S : String) (cc : Option String) :
    ((sendMessage cfg s ⟨.error E, none, some S, tl, e1, e2⟩ t utext cc).2.2
        = .error (.storage S)) ∧
    (∀ msg : String,
      (sendMessage cfg s ⟨.error E, none, some S, tl, e1, e2⟩ t utext cc).2.2
        ≠ .error (.chat msg)) ∧
    ((sendMessage cfg s ⟨.error E, none, some S, tl, e1, e2⟩ t utext cc).1
        = (saveMessage s t "user" utext cc e1).1) := by
  exact ⟨rfl, fun msg => by simp [sendMessage], rfl⟩

/-- C4: over any sequence of `save_message` calls, `load_history(t, n)`
returns exactly the last `min n count` rows of thread `t` in insertion
order (so equal timestamps keep insertion order), their timestamps are
non-decreasing, and there are no duplicates. -/
theorem load_history_returns_last_min (ops : List SaveOp) (t : String)
    (n : Nat) :
    (loadHistory (applyOps ops initialStore) t n
        = (threadRows (applyOps ops initialStore) t).drop
            ((threadRows (applyOps ops initialStore) t).length - n)) ∧
    ((loadHistory (applyOps ops initialStore) t n).length
        = min n (threadRows (applyOps ops initialStore) t).length) ∧
    ((loadHistory (applyOps ops initialStore) t n).Pairwise
        (fun a b => a.created_at ≤ b.created_at)) ∧
    (loadHistory (applyOps ops initialStore) t n).Nodup := by
  have hinv := storeInv_applyOps ops initialStore storeInv_initial
  have hdrop := loadHistory_eq_drop (applyOps ops initialStore) t n hinv
  refine ⟨hdrop, ?_, ?_, ?_⟩
  · rw [hdrop, List.length_drop]; omega
  · rw [hdrop]; exact (threadRows_pairwise_time _ t hinv).drop
  · rw [hdrop]
    have hid : (threadRows (applyOps ops initialStore) t).Pairwise
        (fun a b => a.id < b.id) := hinv.id_sorted.filter _
    exact (hid.drop).imp fun hab heq => by simp [heq] at hab

/-- C2: the history handed to the completion engine is the role conversion
of the most recent pre-existing rows of the thread drawn from the top-100
window, excluding the just-persisted inbound turn; on a thread with exactly
one prior user turn plus the inbound turn the history is the single user
turn. -/
theorem send_message_history_excludes_inbound (ops : List SaveOp)
    (cfg : SessionConfig) (er : Except String String) (fsf : Option String)
    (tl : Except String (List TimelineItem)) (e1 e2 el : Nat)
    (t utext prior : String) (cc cc2 : Option String) :
    (((sendMessage cfg (applyOps ops initialStore) ⟨er, none, fsf, tl, e1, e2⟩
          t utext cc).2.1).map EngineCall.history
      = some (((threadRows (applyOps ops initialStore) t).drop
          ((threadRows (applyOps ops initialStore) t).length + 1 - 100)).filterMap
            toRigMessage)) ∧
    (((sendMessage cfg (saveMessage initialStore t "user" prior cc2 el).1
          ⟨er, none, fsf, tl, e1, e2⟩ t utext cc).2.1).map EngineCall.history
      = some [RigMessage.user prior]) := by
  constructor
  · rw [sendMessage_call_history, history_rows_after_save _ _ _ _ _
      (storeInv_applyOps ops initialStore storeInv_initial)]
  · rw [sendMessage_call_history, history_rows_after_save _ _ _ _ _
      (storeInv_save initialStore t "user" prior cc2 el storeInv_initial)]
    rw [threadRows_save_same]
    simp [threadRows, initialStore, toRigMessage]

/-- C3 counterexample: on a non-empty timeline whose single item is a
branch run with no conclusion, `load_channel_transcript` returns `Some` of
the empty string, not `None` as the claim states. -/
theorem load_channel_transcript_filtered_is_some :
    loadChannelTranscript
        (.ok [TimelineItem.branchRun "investigate" none]) = some "" ∧
    loadChannelTranscript
        (.ok [TimelineItem.branchRun "investigate" none]) ≠ none := by
  exact ⟨rfl, by decide⟩

/-- C3 amended: `load_channel_transcript` returns `None` when the channel
timeline has no items or the history service fails; when the timeline has
at least one item it returns `Some` of the rendered transcript, which is
the empty string (still `Some`, not `None`) when every item is filtered
out. -/
theorem load_channel_transcript_empty_cases (fail : String)
    (items : List TimelineItem) (h : items ≠ []) :
    (loadChannelTranscript (.ok ([] : List TimelineItem)) = none) ∧
    (loadChannelTranscript (.error fail) = none) ∧
    (loadChannelTranscript (.ok items)).isSome ∧
    (loadChannelTranscript (.ok [TimelineItem.workerRun "scan" none])
        = some "") := by
  refine ⟨rfl, rfl, ?_, rfl⟩
  simp [loadChannelTranscript, h]

/-- C3 amended, non-vacuity: the non-empty case instantiated at a concrete
one-item timeline. -/
theorem load_channel_transcript_empty_cases_check :
    (loadChannelTranscript
        (.ok [TimelineItem.message "user" "hi" none])).isSome :=
  (load_channel_transcript_empty_cases "boom"
    [TimelineItem.message "user" "hi" none] (by simp)).2.2.1

/-- C6: a message timeline item always renders as
the double-starred sender display name (or the role when absent) followed by the content; a branch or
worker run renders exactly when its optional outcome is populated; on the
concrete timeline with 3 messages and 2 branch runs of which one has a
conclusion, the transcript is exactly the 3 message lines and the single
concluded branch line, in timeline order. -/
theorem transcript_rendering (role content d t c r : String)
    (sender : Option String) :
    (renderTimelineItem (.message role content sender)
        = some ("**" ++ sender.getD role ++ "**: " ++ content ++ "\n\n")) ∧
    (renderTimelineItem (.branchRun d (some c))
        = some ("*[Branch: " ++ d ++ "]*: " ++ c ++ "\n\n")) ∧
    (renderTimelineItem (.branchRun d none) = none) ∧
    (renderTimelineItem (.workerRun t (some r))
        = some ("*[Worker: " ++ t ++ "]*: " ++ r ++ "\n\n")) ∧
    (renderTimelineItem (.workerRun t none) = none) ∧
    (loadChannelTranscript (.ok
        [TimelineItem.message "user" "hi" none,
         TimelineItem.message "assistant" "hello" (some "Bot"),
         TimelineItem.branchRun "dig" (some "found it"),
         TimelineItem.message "user" "ok" none,
         TimelineItem.branchRun "probe" none])
      = some "**user**: hi\n\n**Bot**: hello\n\n*[Branch: dig]*: found it\n\n**user**: ok\n\n") := by
  exact ⟨rfl, rfl, rfl, rfl, rfl, rfl⟩

/-- C7: a history-service failure makes `load_channel_transcript` return
`None`; `build_system_prompt` then produces the same prompt as on an empty
timeline, and `send_message` behaves identically to a run with no channel
context to inject — the failure never fails the chat request. -/
theorem channel_failure_swallowed (cfg : SessionConfig) (s : StoreState)
    (eng : PromptEngine) (rcfg : RuntimeConfig)
    (er : Except String String) (usf fsf : Option String) (fail : String)
    (e1 e2 : Nat) (t utext : String) (cc ccb : Option String) :
    (loadChannelTranscript (.error fail) = none) ∧
    (buildSystemPrompt eng rcfg (.error fail) ccb
        = buildSystemPrompt eng rcfg (.ok []) ccb) ∧
    (sendMessage cfg s ⟨er, usf, fsf, .error fail, e1, e2⟩ t utext cc
        = sendMessage cfg s ⟨er, usf, fsf, .ok [], e1, e2⟩ t utext cc) := by
  refine ⟨rfl, ?_, ?_⟩
  · cases ccb <;> rfl
  · cases usf <;> cases er <;> cases fsf <;> cases cc <;> rfl

/-- C8: rows with role `user` become plain text turns, rows with role
`assistant` become assistant-authored turns, rows with any other role are
dropped, and the history `send_message` hands to the engine is exactly the
`toRigMessage` conversion (a `filterMap`) of the retained rows. -/
theorem history_role_conversion (idv ts e1 e2 : Nat)
    (t content other utext : String) (cc cc2 : Option String)
    (cfg : SessionConfig) (s : StoreState) (er : Except String String)
    (fsf : Option String) (tl : Except String (List TimelineItem))
    (h1 : other ≠ "user") (h2 : other ≠ "assistant") :
    (toRigMessage ⟨idv, t, "user", content, cc, ts⟩
        = some (.user content)) ∧
    (toRigMessage ⟨idv, t, "assistant", content, cc, ts⟩
        = some (.assistant content)) ∧
    (toRigMessage ⟨idv, t, other, content, cc, ts⟩ = none) ∧
    (((sendMessage cfg s ⟨er, none, fsf, tl, e1, e2⟩ t utext cc2).2.1).map
        EngineCall.history
      = some (((loadHistory (saveMessage s t "user" utext cc2 e1).1 t
          100).dropLast).filterMap toRigMessage)) := by
  refine ⟨rfl, rfl, ?_, sendMessage_call_history cfg s er fsf tl e1 e2 t utext cc2⟩
  simp [toRigMessage, h1, h2]

/-- C8, non-vacuity: a row with the unmodelled role `system` is dropped. -/
theorem history_role_conversion_check :
    toRigMessage ⟨0, "t", "system", "x", none, 0⟩ = none :=
  (history_role_conversion 0 0 0 0 "t" "x" "system" "u" none none
    ⟨sampleEngine, ⟨"", "", false, none, false⟩, "m"⟩ initialStore
    (.ok "r") none (.ok []) (by simp) (by simp)).2.2.1

/-- C9: `build_system_prompt` normalizes an empty identity context and an
empty memory summary to `None` before handing them to the template
renderer, and passes non-empty values through unchanged as `Some`. -/
theorem prompt_empty_normalization (eng : PromptEngine)
    (idtext mem : String) (b o : Bool) (k : Option String)
    (tl : Except String (List TimelineItem)) (ccb : Option String)
    (hid : idtext ≠ "") (hmem : mem ≠ "") :
    (buildSystemPrompt eng ⟨"", "", b, k, o⟩ tl ccb
      = eng.render_cortex_chat_prompt none none
          (match ccb with
            | some _ => loadChannelTranscript tl
            | none => none)
          (eng.render_worker_capabilities b k.isSome o)) ∧
    (buildSystemPrompt eng ⟨idtext, mem, b, k, o⟩ tl ccb
      = eng.render_cortex_chat_prompt (some idtext) (some mem)
          (match ccb with
            | some _ => loadChannelTranscript tl
            | none => none)
          (eng.render_worker_capabilities b k.isSome o)) ∧
    (emptyToNone "" = none) ∧ (emptyToNone idtext = some idtext) := by
  refine ⟨rfl, ?_, rfl, by simp [emptyToNone, hid]⟩
  simp [buildSystemPrompt, emptyToNone, hid, hmem]

/-- C9, non-vacuity: the pass-through case at concrete non-empty identity
and memory values, with the concrete sample engine. -/
theorem prompt_empty_normalization_check :
    buildSystemPrompt sampleEngine ⟨"x", "y", true, none, false⟩
        (.ok []) none
      = sampleEngine.render_cortex_chat_prompt (some "x") (some "y") none
          (sampleEngine.render_worker_capabilities true false false) :=
  (prompt_empty_normalization sampleEngine "x" "y" true false none
    (.ok []) none (by simp) (by simp)).2.1

end Spacebot
